import Mathlib

/-!
Verification of the temperature/ADC monitor firmware core
(`Monitor_usart.c`): the byte-level protocol decoder, the shared
temperature register, the ADC sample buffer with its median filter, and
the tick-based scheduler of `Monitor_Task`.

The C code is shallowly embedded: every C function that the properties
mention is translated into an executable Lean definition operating on an
explicit state record.  Machine integers are modelled as `Nat`
(`uint8_t` received bytes as `Fin 256`, since the UART delivers single
bytes); tick arithmetic stays in `Nat` because every deadline/tick value
involved is far below `2^32` in the scenarios considered and the code
only ever moves deadlines forward.
-/

set_option linter.unusedVariables false
set_option linter.unreachableTactic false
set_option linter.unusedTactic false
set_option linter.unnecessarySeqFocus false
set_option maxRecDepth 200000

/-- A received UART byte (`uint8_t rx_byte`). -/
abbrev Byte := Fin 256

/-- `PRINT_INTERVAL_MS` from Monitor_usart.c line 25. -/
def PRINT_INTERVAL_MS : Nat := 250

/-- `ADC_SAMPLE_MS` from Monitor_usart.c line 26. -/
def ADC_SAMPLE_MS : Nat := 50

/-- `MAX_ADC_SAMPLES` from Monitor_usart.c line 32. -/
def MAX_ADC_SAMPLES : Nat := 10

/-- `uint16_t raw = (uint16_t)lsb | ((uint16_t)msb << 8);`
(Monitor_usart.c line 97). -/
def mkRaw (lsb msb : Byte) : Nat := lsb.val ||| (msb.val <<< 8)

/-- For bytes the bitwise-or of the disjoint ranges is exactly the
little-endian 16-bit value: low byte plus 256 times the high byte. -/
theorem mkRaw_eq (lsb msb : Byte) : mkRaw lsb msb = lsb.val + 256 * msb.val := by
  have h : lsb.val < 2 ^ 8 := lsb.isLt
  show lsb.val ||| (msb.val <<< 8) = lsb.val + 256 * msb.val
  rw [Nat.shiftLeft_eq, Nat.mul_comm msb.val (2 ^ 8), Nat.lor_comm,
    ← Nat.mul_add_lt_is_or h]
  omega

/-- `ProtocolState_t` (Monitor_usart.c lines 35-41). -/
inductive ProtocolState
  | STATE_WAIT_FC
  | STATE_CHECK_LEN
  | STATE_CHECK_ZERO
  | STATE_CHECK_STATUS
  | STATE_READ_DATA
deriving DecidableEq

open ProtocolState

/-- The decoder's mutable globals: `p_state`, `data_buf[6]`, `data_idx`
(Monitor_usart.c lines 47-49). -/
structure DecoderState where
  p_state : ProtocolState
  data_buf : List Byte
  data_idx : Nat
deriving DecidableEq

/-- Reset values of the decoder globals. -/
def initDecoder : DecoderState :=
  { p_state := STATE_WAIT_FC, data_buf := List.replicate 6 0, data_idx := 0 }

/-- One invocation of the `switch (p_state)` body of
`HAL_UART_RxCpltCallback` (Monitor_usart.c lines 235-271) on one
received byte.  Besides the new decoder state it returns the
`(data_buf[0], data_buf[1])` pair passed to `Update_Temperature` when a
frame completes (line 263), i.e. the emitted temperature sample. -/
def rxStep (s : DecoderState) (b : Byte) : DecoderState × Option (Byte × Byte) :=
  match s.p_state with
  | STATE_WAIT_FC =>
      (if b = 0xFC then { s with p_state := STATE_CHECK_LEN } else s, none)
  | STATE_CHECK_LEN =>
      (if b = 0x0A then { s with p_state := STATE_CHECK_ZERO }
       else if b = 0x05 then { s with p_state := STATE_WAIT_FC }
       else { s with p_state := STATE_WAIT_FC }, none)
  | STATE_CHECK_ZERO =>
      (if b = 0x00 then { s with p_state := STATE_CHECK_STATUS }
       else { s with p_state := STATE_WAIT_FC }, none)
  | STATE_CHECK_STATUS =>
      (if b = 0x01 then { s with p_state := STATE_READ_DATA, data_idx := 0 }
       else { s with p_state := STATE_WAIT_FC }, none)
  | STATE_READ_DATA =>
      let buf := s.data_buf.set s.data_idx b
      let idx := s.data_idx + 1
      if 6 ≤ idx then
        ({ s with data_buf := buf, data_idx := idx, p_state := STATE_WAIT_FC },
         some (buf.getD 0 0, buf.getD 1 0))
      else
        ({ s with data_buf := buf, data_idx := idx }, none)

/-- Feed a byte sequence to the decoder one byte at a time, in order,
collecting every emitted sample. -/
def runDecoder (s : DecoderState) : List Byte → DecoderState × List (Byte × Byte)
  | [] => (s, [])
  | b :: rest =>
      let s2 := rxStep s b
      let r := runDecoder s2.1 rest
      (r.1, s2.2.toList ++ r.2)

/-- A valid frame: header/marker/command bytes `FC 0A 00 01` followed by
the six-byte data section. -/
def frameBytes (d0 d1 d2 d3 d4 d5 : Byte) : List Byte :=
  [0xFC, 0x0A, 0x00, 0x01, d0, d1, d2, d3, d4, d5]

theorem runDecoder_append (s : DecoderState) (xs ys : List Byte) :
    runDecoder s (xs ++ ys) =
      ((runDecoder (runDecoder s xs).1 ys).1,
       (runDecoder s xs).2 ++ (runDecoder (runDecoder s xs).1 ys).2) := by
  induction xs generalizing s with
  | nil => simp [runDecoder]
  | cons b rest ih => simp [runDecoder, ih, List.append_assoc]

/-- Running one complete valid frame from any state whose protocol state
is `STATE_WAIT_FC` (with the 6-byte scratch buffer) emits exactly the
`(lsb, msb)` pair of the first two data bytes and ends back in
`STATE_WAIT_FC` with the data section stored in the buffer. -/
theorem frame_run (buf : List Byte) (h : buf.length = 6) (idx : Nat)
    (d0 d1 d2 d3 d4 d5 : Byte) :
    runDecoder { p_state := STATE_WAIT_FC, data_buf := buf, data_idx := idx }
        (frameBytes d0 d1 d2 d3 d4 d5) =
      ({ p_state := STATE_WAIT_FC, data_buf := [d0, d1, d2, d3, d4, d5],
         data_idx := 6 }, [(d0, d1)]) := by
  match buf, h with
  | [b0, b1, b2, b3, b4, b5], _ =>
    simp [frameBytes, runDecoder, rxStep, List.set]

/-- C1: feeding the bytes of a valid frame (header and marker/command
bytes `FC 0A 00 01` followed by the full six-byte data section) one at a
time, in order, to the decoder starting from the `STATE_WAIT_FC` state
emits exactly one temperature sample whose raw value is the
little-endian 16-bit value formed from the first two data bytes (first
data byte = low byte, second = high byte), and the decoder is back in
`STATE_WAIT_FC` afterwards. -/
theorem C1_valid_frame_emits_one_sample (buf : List Byte) (h : buf.length = 6)
    (idx : Nat) (d0 d1 d2 d3 d4 d5 : Byte) :
    (runDecoder { p_state := STATE_WAIT_FC, data_buf := buf, data_idx := idx }
        (frameBytes d0 d1 d2 d3 d4 d5)).2.map (fun p => mkRaw p.1 p.2) =
      [d0.val + 256 * d1.val] ∧
    (runDecoder { p_state := STATE_WAIT_FC, data_buf := buf, data_idx := idx }
        (frameBytes d0 d1 d2 d3 d4 d5)).1.p_state = STATE_WAIT_FC := by
  rw [frame_run buf h idx]
  simp [mkRaw_eq]

/-- Witness for C1 at a concrete frame: data bytes 0x2A 0x01 ... give
raw 42 + 256 = 298. -/
theorem C1_valid_frame_emits_one_sample_witness :
    (runDecoder { p_state := STATE_WAIT_FC, data_buf := List.replicate 6 0,
                  data_idx := 0 } (frameBytes 0x2A 0x01 0 0 0 0)).2.map
        (fun p => mkRaw p.1 p.2) = [298] :=
  (C1_valid_frame_emits_one_sample (List.replicate 6 0) (by decide) 0
    0x2A 0x01 0 0 0 0).1

/-- Bytes that are not the header byte `0xFC` leave a decoder sitting in
`STATE_WAIT_FC` completely unchanged and emit nothing. -/
theorem runDecoder_no_header (s : DecoderState) (hs : s.p_state = STATE_WAIT_FC)
    (ns : List Byte) (hn : ∀ b ∈ ns, b ≠ (0xFC : Byte)) :
    runDecoder s ns = (s, []) := by
  induction ns with
  | nil => simp [runDecoder]
  | cons b rest ih =>
    have hb : b ≠ (0xFC : Byte) := hn b (List.mem_cons_self b rest)
    have hstep : rxStep s b = (s, none) := by
      unfold rxStep
      rw [hs]
      simp [hb]
    simp [runDecoder, hstep]
    exact ih (fun b hb2 => hn b (List.mem_cons_of_mem _ hb2))

/-- C8 counterexample: a valid frame, then the single noise byte `0xFC`,
then another valid frame.  The decoder consumes the noise byte as a
header, so the second frame's real header byte arrives in
`STATE_CHECK_LEN` and is rejected, and the second frame is lost: only
one sample (raw 10) is emitted, not both (raw 10 and raw 20). -/
theorem C8_noise_counterexample :
    (runDecoder initDecoder
        (frameBytes 10 0 0 0 0 0 ++ [0xFC] ++ frameBytes 20 0 0 0 0 0)).2.map
        (fun p => mkRaw p.1 p.2) = [10] ∧
    ¬ (runDecoder initDecoder
        (frameBytes 10 0 0 0 0 0 ++ [0xFC] ++ frameBytes 20 0 0 0 0 0)).2.map
        (fun p => mkRaw p.1 p.2) = [10, 20] := by
  decide

/-- C8 amended: for a byte sequence consisting of one valid frame, an
arbitrary run of noise bytes none of which is the header byte `0xFC`,
and another valid frame, the decoder starting from `STATE_WAIT_FC`
emits exactly the two samples and resynchronizes in `STATE_WAIT_FC`. -/
theorem C8_resync_after_headerless_noise (buf : List Byte) (h : buf.length = 6)
    (idx : Nat) (noise : List Byte) (hn : ∀ b ∈ noise, b ≠ (0xFC : Byte))
    (d0 d1 d2 d3 d4 d5 e0 e1 e2 e3 e4 e5 : Byte) :
    (runDecoder { p_state := STATE_WAIT_FC, data_buf := buf, data_idx := idx }
        (frameBytes d0 d1 d2 d3 d4 d5 ++ noise ++ frameBytes e0 e1 e2 e3 e4 e5)).2.map
        (fun p => mkRaw p.1 p.2) =
      [d0.val + 256 * d1.val, e0.val + 256 * e1.val] ∧
    (runDecoder { p_state := STATE_WAIT_FC, data_buf := buf, data_idx := idx }
        (frameBytes d0 d1 d2 d3 d4 d5 ++ noise ++ frameBytes e0 e1 e2 e3 e4 e5)).1.p_state =
      STATE_WAIT_FC := by
  have h2 : ([d0, d1, d2, d3, d4, d5] : List Byte).length = 6 := by simp
  rw [List.append_assoc, runDecoder_append, frame_run buf h idx, runDecoder_append]
  rw [runDecoder_no_header _ rfl noise hn]
  simp only [frame_run [d0, d1, d2, d3, d4, d5] h2 6]
  simp [mkRaw_eq]

/-- Witness for C8's amended theorem: one noise byte `0x55` between two
concrete frames; both raw values come out. -/
theorem C8_resync_after_headerless_noise_witness :
    (runDecoder { p_state := STATE_WAIT_FC, data_buf := List.replicate 6 0,
                  data_idx := 0 }
        (frameBytes 10 0 0 0 0 0 ++ [0x55] ++ frameBytes 20 0 0 0 0 0)).2.map
        (fun p => mkRaw p.1 p.2) = [10, 20] :=
  (C8_resync_after_headerless_noise (List.replicate 6 0) (by decide) 0
    [0x55] (by decide) 10 0 0 0 0 0 20 0 0 0 0 0).1

/-- The state-machine invariant of the data-reading state: at call
entry, while `p_state` is `STATE_READ_DATA`, the scratch index is at
most 5. -/
def decodeInv (s : DecoderState) : Prop :=
  s.p_state = STATE_READ_DATA → s.data_idx ≤ 5

instance (s : DecoderState) : Decidable (decodeInv s) := by
  unfold decodeInv
  infer_instance

/-- Indices at which `data_buf[data_idx++] = rx_byte` (line 260) writes
into the 6-byte scratch buffer while the given byte sequence is fed. -/
def rxWriteIdxs (s : DecoderState) : List Byte → List Nat
  | [] => []
  | b :: rest =>
      (if s.p_state = STATE_READ_DATA then [s.data_idx] else []) ++
        rxWriteIdxs (rxStep s b).1 rest

theorem rxStep_preserves_inv : ∀ (s : DecoderState) (b : Byte),
    decodeInv s → decodeInv (rxStep s b).1 := by
  rintro ⟨ps, buf, idx⟩ b hs
  unfold decodeInv at *
  cases ps <;> simp only [rxStep] <;> split <;> simp_all <;> omega

theorem runDecoder_inv (bs : List Byte) (s : DecoderState) (hs : decodeInv s) :
    decodeInv (runDecoder s bs).1 ∧ ∀ i ∈ rxWriteIdxs s bs, i < 6 := by
  induction bs generalizing s with
  | nil => simpa [runDecoder, rxWriteIdxs] using hs
  | cons b rest ih =>
    have hnext := rxStep_preserves_inv s b hs
    have hrec := ih (rxStep s b).1 hnext
    refine ⟨by simpa [runDecoder] using hrec.1, ?_⟩
    intro i hi
    simp only [rxWriteIdxs, List.mem_append] at hi
    rcases hi with hi | hi
    · rcases Decidable.em (s.p_state = STATE_READ_DATA) with hps | hps
      · simp [hps] at hi
        have := hs hps
        omega
      · simp [hps] at hi
    · exact hrec.2 i hi

/-- C10: for every input byte sequence fed from reset, every write into
the 6-byte scratch buffer happens at an index strictly below 6; the
index is reset to 0 on entering `STATE_READ_DATA`; once the index
reaches 6 the decoder is back in `STATE_WAIT_FC`; and the invariant
(in `STATE_READ_DATA` the index is at most 5 at call entry) is
maintained along the whole run. -/
theorem C10_no_scratch_overflow (bs : List Byte) :
    (∀ i ∈ rxWriteIdxs initDecoder bs, i < 6) ∧
    decodeInv (runDecoder initDecoder bs).1 ∧
    (∀ s : DecoderState, ∀ b : Byte, s.p_state ≠ STATE_READ_DATA →
      (rxStep s b).1.p_state = STATE_READ_DATA → (rxStep s b).1.data_idx = 0) ∧
    (∀ s : DecoderState, ∀ b : Byte, decodeInv s →
      6 ≤ (rxStep s b).1.data_idx → (rxStep s b).1.p_state ≠ STATE_READ_DATA) := by
  have hinit : decodeInv initDecoder := by decide
  have hmain := runDecoder_inv bs initDecoder hinit
  refine ⟨hmain.2, hmain.1, ?_, ?_⟩
  · rintro ⟨ps, buf, idx⟩ b hps hnew
    cases ps <;>
      simp only [rxStep] at hps hnew ⊢ <;>
      first
        | exact absurd rfl hps
        | (split at hnew <;> simp_all)
  · rintro ⟨ps, buf, idx⟩ b hs hidx
    unfold decodeInv at hs
    cases ps <;> simp only [rxStep] at hidx ⊢ <;>
      first
        | (split at hidx <;> split <;> simp_all <;> omega)
        | (split <;> simp_all <;> omega)
        | simp_all
        | omega

/-- Witness for C10 on a concrete byte sequence: one full frame plus a
partial second frame. -/
theorem C10_no_scratch_overflow_witness :
    ∀ i ∈ rxWriteIdxs initDecoder
        (frameBytes 10 0 0 0 0 0 ++ [0xFC, 0x0A, 0x00, 0x01, 0x42]), i < 6 :=
  (C10_no_scratch_overflow
    (frameBytes 10 0 0 0 0 0 ++ [0xFC, 0x0A, 0x00, 0x01, 0x42])).1

/-- The scheduler's mutable globals (Monitor_usart.c lines 52-68).  The
temperature register `g_latest_valid_temp` is a float holding
`raw / 10.0f`; it is modelled by the raw value itself (tenths of a
degree), which carries the same information exactly.  `adc_values` is
the fixed 10-slot `uint32_t` array, `adc_count` the number of filled
slots. -/
structure MonitorState where
  g_latest_valid_temp : Nat
  g_has_valid_data : Bool
  is_running : Bool
  time_synced : Bool
  time_base_tick : Nat
  next_print_tick : Nat
  next_adc_tick : Nat
  adc_values : List Nat
  adc_count : Nat
deriving DecidableEq

/-- Reset values of the scheduler globals (C static initialisers,
lines 52-68): running, unsynced, empty sample buffer. -/
def initMonitorState : MonitorState :=
  { g_latest_valid_temp := 0
    g_has_valid_data := false
    is_running := true
    time_synced := false
    time_base_tick := 0
    next_print_tick := 0
    next_adc_tick := 0
    adc_values := List.replicate 10 0
    adc_count := 0 }

/-- `Update_Temperature` (Monitor_usart.c lines 96-121), called from the
receive interrupt with the two data bytes; `now` is the `HAL_GetTick()`
value read at line 107.  The C guard `val >= TEMP_MIN && val <= TEMP_MAX`
with `val = raw / 10.0f` holds exactly when `raw ≤ 1000`: raw is
unsigned, `1000 / 10.0f` is exactly `100.0f`, and for `raw ≥ 1001` the
nearest float to `raw / 10` exceeds `100.0f` by far more than one ulp. -/
def Update_Temperature (now : Nat) (lsb msb : Byte) (s : MonitorState) :
    MonitorState :=
  let raw := mkRaw lsb msb
  if raw ≤ 1000 then
    let s2 := { s with g_latest_valid_temp := raw, g_has_valid_data := true }
    if s2.is_running && !s2.time_synced then
      { s2 with
        time_synced := true
        time_base_tick := now + PRINT_INTERVAL_MS
        next_print_tick := now + PRINT_INTERVAL_MS
        next_adc_tick := now }
    else s2
  else s

/-- The full receive-interrupt callback (Monitor_usart.c lines 230-273):
one decoder step, and on frame completion the `Update_Temperature` call
with `data_buf[0]`, `data_buf[1]`. -/
def HAL_UART_RxCpltCallback (now : Nat) (b : Byte) (d : DecoderState)
    (m : MonitorState) : DecoderState × MonitorState :=
  let step := rxStep d b
  match step.2 with
  | some p => (step.1, Update_Temperature now p.1 p.2 m)
  | none => (step.1, m)

/-- The carried compare-and-swap of the inner bubble-sort loop
(Monitor_usart.c lines 83-89): `a` is the value currently sitting at
position `j`, `bound` the number of comparisons left (`n-i-1-j`), and
the list the remaining slots `j+1 ...`.  Each step compares
`sorted[j] > sorted[j+1]` and swaps. -/
def innerSweepAux (a : Nat) : Nat → List Nat → List Nat
  | 0, rest => a :: rest
  | _ + 1, [] => [a]
  | bound + 1, c :: rest =>
      if a > c then c :: innerSweepAux a bound rest
      else a :: innerSweepAux c bound rest

/-- One full iteration of the inner loop `for j in 0 .. bound-1`
(Monitor_usart.c lines 83-89): `bound` adjacent comparisons starting at
the head of the list. -/
def innerSweep : Nat → List Nat → List Nat
  | _, [] => []
  | bound, a :: rest => innerSweepAux a bound rest

/-- An unbounded sweep: as many adjacent comparisons as the list allows.
`innerSweep bound` agrees with it on the first `bound + 1` elements. -/
def fullSweepAux (a : Nat) : List Nat → List Nat
  | [] => [a]
  | c :: rest => if a > c then c :: fullSweepAux a rest else a :: fullSweepAux c rest

def fullSweep : List Nat → List Nat
  | [] => []
  | a :: rest => fullSweepAux a rest

/-- The outer bubble-sort loop `for i in 0 .. n-2` (Monitor_usart.c
lines 82-90): the counter counts the remaining iterations, so iteration
`i` of the C loop runs with `k = n-1-i` comparisons. -/
def bubbleLoop : Nat → List Nat → List Nat
  | 0, xs => xs
  | k + 1, xs => bubbleLoop k (innerSweep (k + 1) xs)

/-- The bubble sort of `Get_Median_ADC` (Monitor_usart.c lines 82-90)
applied to the copied sample window. -/
def bubbleSort (xs : List Nat) : List Nat := bubbleLoop (xs.length - 1) xs

/-- `Get_Median_ADC` (Monitor_usart.c lines 73-93): 0 when the window is
empty, otherwise the element at index `n / 2` of the bubble-sorted copy
of the first `adc_count` stored samples. -/
def Get_Median_ADC (adc_values : List Nat) (adc_count : Nat) : Nat :=
  if adc_count = 0 then 0
  else (bubbleSort (adc_values.take adc_count)).getD (adc_count / 2) 0

/-- Deadline advancement used for both periodic activities
(Monitor_usart.c lines 187-188 and 223-224):
`deadline += period; if (deadline < now) deadline = now + period;`. -/
def advance_deadline (deadline now period : Nat) : Nat :=
  let d := deadline + period
  if d < now then now + period else d

/-- Storing one ADC conversion result (Monitor_usart.c lines 182-184):
append into `adc_values[adc_count++]` only while `adc_count` is below
`MAX_ADC_SAMPLES`. -/
def adc_push (s : MonitorState) (v : Nat) : MonitorState :=
  if s.adc_count < MAX_ADC_SAMPLES then
    { s with adc_values := s.adc_values.set s.adc_count v
             adc_count := s.adc_count + 1 }
  else s

/-- The button block of `Monitor_Task` (Monitor_usart.c lines 145-163):
`pressed` tells whether the debounced press-and-release was observed in
this poll.  On a transition into the running state the sync flag and the
sample buffer are cleared. -/
def button_step (pressed : Bool) (s : MonitorState) : MonitorState :=
  if pressed then
    if !s.is_running then
      { s with is_running := true, time_synced := false, adc_count := 0 }
    else { s with is_running := false }
  else s

/-- The ADC block of `Monitor_Task` (Monitor_usart.c lines 175-189):
`sample` is `some v` when `HAL_ADC_PollForConversion` succeeded with
value `v`, `none` on conversion failure. -/
def adc_step (now : Nat) (sample : Option Nat) (s : MonitorState) : MonitorState :=
  if s.next_adc_tick ≤ now then
    let s2 := match sample with
      | some v => adc_push s v
      | none => s
    { s2 with next_adc_tick := advance_deadline s.next_adc_tick now ADC_SAMPLE_MS }
  else s

/-- One emitted report line (Monitor_usart.c lines 212-216).  The C code
prints `relative_time = (now - time_base_tick) / 1000.0f` with two
decimals, the temperature with one decimal and the median ADC value;
the model keeps the elapsed milliseconds, the temperature in tenths of a
degree and the median. -/
structure Report where
  relative_time_ms : Nat
  temp_tenths : Nat
  median_adc : Nat
deriving DecidableEq

/-- The print block of `Monitor_Task` (Monitor_usart.c lines 192-225):
read the temperature register, emit one report when data has ever been
received, clear the sample buffer, and advance the print deadline. -/
def print_step (now : Nat) (s : MonitorState) : MonitorState × Option Report :=
  if s.next_print_tick ≤ now then
    if s.g_has_valid_data then
      ({ s with
          adc_count := 0
          next_print_tick := advance_deadline s.next_print_tick now PRINT_INTERVAL_MS },
       some { relative_time_ms := now - s.time_base_tick
              temp_tenths := s.g_latest_valid_temp
              median_adc := Get_Median_ADC s.adc_values s.adc_count })
    else
      ({ s with
          next_print_tick := advance_deadline s.next_print_tick now PRINT_INTERVAL_MS },
       none)
  else (s, none)

/-- One cooperative poll of `Monitor_Task` (Monitor_usart.c
lines 138-227): button handling, then - only while running and synced -
the ADC sampling block and the print block.  The LED block
(lines 166-169) only toggles a GPIO pin and its own deadline and is
omitted as pure I/O glue. -/
def Monitor_Task (now : Nat) (pressed : Bool) (sample : Option Nat)
    (s : MonitorState) : MonitorState × Option Report :=
  let s1 := button_step pressed s
  if s1.is_running && s1.time_synced then
    print_step now (adc_step now sample s1)
  else (s1, none)

/-- A sequence of polls: each entry is the tick, the debounced button
event and the ADC conversion result of one `Monitor_Task` invocation;
all emitted reports are collected in order. -/
def runPolls (s : MonitorState) : List (Nat × Bool × Option Nat) →
    MonitorState × List Report
  | [] => (s, [])
  | (now, pressed, sample) :: rest =>
      let step := Monitor_Task now pressed sample s
      let r := runPolls step.1 rest
      (r.1, step.2.toList ++ r.2)

theorem innerSweepAux_perm (a : Nat) (xs : List Nat) (bound : Nat) :
    (innerSweepAux a bound xs).Perm (a :: xs) := by
  induction xs generalizing a bound with
  | nil => cases bound <;> simp [innerSweepAux]
  | cons c rest ih =>
    cases bound with
    | zero => simp [innerSweepAux]
    | succ b =>
      simp only [innerSweepAux]
      split
      · exact ((ih a b).cons c).trans (List.Perm.swap a c rest)
      · exact (ih c b).cons a

theorem innerSweep_perm (bound : Nat) (xs : List Nat) :
    (innerSweep bound xs).Perm xs := by
  cases xs with
  | nil => simp [innerSweep]
  | cons a rest => simpa [innerSweep] using innerSweepAux_perm a rest bound

theorem bubbleLoop_perm (k : Nat) (xs : List Nat) : (bubbleLoop k xs).Perm xs := by
  induction k generalizing xs with
  | zero => simp [bubbleLoop]
  | succ k ih => exact (ih _).trans (innerSweep_perm (k + 1) xs)

theorem fullSweepAux_perm (a : Nat) (xs : List Nat) :
    (fullSweepAux a xs).Perm (a :: xs) := by
  induction xs generalizing a with
  | nil => simp [fullSweepAux]
  | cons c rest ih =>
    simp only [fullSweepAux]
    split
    · exact ((ih a).cons c).trans (List.Perm.swap a c rest)
    · exact (ih c).cons a

/-- A full sweep deposits an upper bound of all swept elements at the
end of the list. -/
theorem fullSweepAux_max (a : Nat) (xs : List Nat) :
    ∃ ys m, fullSweepAux a xs = ys ++ [m] ∧ ∀ y ∈ a :: xs, y ≤ m := by
  induction xs generalizing a with
  | nil => exact ⟨[], a, rfl, by simp⟩
  | cons c rest ih =>
    simp only [fullSweepAux]
    split
    next hgt =>
      obtain ⟨ys, m, heq, hub⟩ := ih a
      refine ⟨c :: ys, m, by simp [heq], ?_⟩
      intro y hy
      simp only [List.mem_cons] at hy
      rcases hy with rfl | rfl | hy
      · exact hub y (by simp)
      · exact le_trans (le_of_lt hgt) (hub a (by simp))
      · exact hub y (by simp [hy])
    next hle =>
      obtain ⟨ys, m, heq, hub⟩ := ih c
      refine ⟨a :: ys, m, by simp [heq], ?_⟩
      intro y hy
      simp only [List.mem_cons] at hy
      rcases hy with rfl | rfl | hy
      · exact le_trans (le_of_not_lt hle) (hub c (by simp))
      · exact hub y (by simp)
      · exact hub y (by simp [hy])

/-- On a list that extends past the comparison bound, the bounded sweep
is a full sweep of the first `bound + 1` elements with the tail
untouched. -/
theorem innerSweepAux_append (bound : Nat) (a : Nat) (t d : List Nat)
    (h : t.length = bound) :
    innerSweepAux a bound (t ++ d) = fullSweepAux a t ++ d := by
  induction bound generalizing a t with
  | zero =>
    have ht : t = [] := List.eq_nil_of_length_eq_zero h
    subst ht
    simp [innerSweepAux, fullSweepAux]
  | succ b ih =>
    cases t with
    | nil => simp at h
    | cons c t2 =>
      have h2 : t2.length = b := by simpa using h
      by_cases hc : a > c
      · simp [innerSweepAux, fullSweepAux, hc, ih a t2 h2]
      · simp [innerSweepAux, fullSweepAux, hc, ih c t2 h2]

theorem innerSweep_append (bound : Nat) (t d : List Nat)
    (h : t.length = bound + 1) :
    innerSweep bound (t ++ d) = fullSweep t ++ d := by
  cases t with
  | nil => simp at h
  | cons a t2 =>
    have h2 : t2.length = bound := by simpa using h
    simpa [innerSweep, fullSweep] using innerSweepAux_append bound a t2 d h2

/-- Bubble-sort invariant: if the suffix `d` is already sorted and
dominates the `k + 1`-element prefix `t`, then `k` more outer-loop
iterations sort the whole list. -/
theorem bubbleLoop_sorted_aux : ∀ (k : Nat) (t d : List Nat),
    t.length = k + 1 → d.Sorted (· ≤ ·) →
    (∀ a ∈ t, ∀ b ∈ d, a ≤ b) → (bubbleLoop k (t ++ d)).Sorted (· ≤ ·) := by
  intro k
  induction k with
  | zero =>
    intro t d ht hd hbound
    match t, ht with
    | [a], _ =>
      simp only [bubbleLoop, List.cons_append, List.nil_append]
      exact List.sorted_cons.mpr ⟨fun b hb => hbound a (by simp) b hb, hd⟩
  | succ k ih =>
    intro t d ht hd hbound
    cases t with
    | nil => simp at ht
    | cons a t2 =>
      have hIS := innerSweep_append (k + 1) (a :: t2) d ht
      obtain ⟨ws, m, heq, hub⟩ := fullSweepAux_max a t2
      have hperm := fullSweepAux_perm a t2
      rw [heq] at hperm
      have hlen : ws.length = k + 1 := by
        have hl := hperm.length_eq
        simp at hl ht
        omega
      have hmem : ∀ y ∈ ws ++ [m], y ∈ a :: t2 := fun y hy => hperm.mem_iff.mp hy
      show (bubbleLoop (k + 1) ((a :: t2) ++ d)).Sorted (· ≤ ·)
      rw [bubbleLoop, hIS]
      have hfs : fullSweep (a :: t2) = ws ++ [m] := by
        simpa [fullSweep] using heq
      rw [hfs, List.append_assoc, List.singleton_append]
      apply ih ws (m :: d) hlen
      · refine List.sorted_cons.mpr ⟨fun b hb => ?_, hd⟩
        exact hbound m (hmem m (by simp)) b hb
      · intro x hx b hb
        have hxt : x ∈ a :: t2 := hmem x (by simp [hx])
        simp only [List.mem_cons] at hb
        rcases hb with rfl | hb
        · exact hub x hxt
        · exact hbound x hxt b hb

theorem bubbleSort_sorted (xs : List Nat) : (bubbleSort xs).Sorted (· ≤ ·) := by
  cases xs with
  | nil => simp [bubbleSort, bubbleLoop]
  | cons a rest =>
    have h := bubbleLoop_sorted_aux rest.length (a :: rest) []
      (by simp) (by simp) (by simp)
    simpa [bubbleSort] using h

theorem bubbleSort_perm (xs : List Nat) : (bubbleSort xs).Perm xs :=
  bubbleLoop_perm _ xs

/-- C7: on every non-empty window `Get_Median_ADC` returns the element
at index `n / 2` (integer division) of the sorted copy of the window
contents - the sorted copy being characterised as the (unique) sorted
permutation of the window; in particular the median of `[5,1,4,2,3]` is
3 and the median of the even window `[4,1,3,2]` is the element at sorted
index 2, namely 3. -/
theorem C7_median_is_sorted_middle (w l : List Nat) (hw : w ≠ [])
    (hp : l.Perm w) (hs : l.Sorted (· ≤ ·)) :
    Get_Median_ADC w w.length = l.getD (w.length / 2) 0 ∧
    Get_Median_ADC [5, 1, 4, 2, 3] 5 = 3 ∧
    Get_Median_ADC [4, 1, 3, 2] 4 = 3 := by
  refine ⟨?_, by decide, by decide⟩
  have hlen : w.length ≠ 0 := by simpa [List.length_eq_zero] using hw
  have hbs : bubbleSort w = l :=
    List.eq_of_perm_of_sorted ((bubbleSort_perm w).trans hp.symm)
      (bubbleSort_sorted w) hs
  unfold Get_Median_ADC
  rw [if_neg hlen, List.take_length, hbs]

/-- Witness for C7 at the odd example window. -/
theorem C7_median_is_sorted_middle_witness :
    Get_Median_ADC [5, 1, 4, 2, 3] 5 =
      ([1, 2, 3, 4, 5] : List Nat).getD (([5, 1, 4, 2, 3] : List Nat).length / 2) 0 :=
  (C7_median_is_sorted_middle [5, 1, 4, 2, 3] [1, 2, 3, 4, 5]
    (by decide) (by decide) (by decide)).1

theorem button_step_false (s : MonitorState) : button_step false s = s := rfl

theorem button_step_time_base (pressed : Bool) (s : MonitorState) :
    (button_step pressed s).time_base_tick = s.time_base_tick := by
  unfold button_step
  split
  · split <;> rfl
  · rfl

theorem adc_push_preserves (s : MonitorState) (v : Nat) :
    (adc_push s v).time_base_tick = s.time_base_tick ∧
    (adc_push s v).next_print_tick = s.next_print_tick ∧
    (adc_push s v).g_has_valid_data = s.g_has_valid_data ∧
    (adc_push s v).g_latest_valid_temp = s.g_latest_valid_temp := by
  unfold adc_push
  split <;> simp

theorem adc_step_preserves (now : Nat) (sample : Option Nat) (s : MonitorState) :
    (adc_step now sample s).time_base_tick = s.time_base_tick ∧
    (adc_step now sample s).next_print_tick = s.next_print_tick ∧
    (adc_step now sample s).g_has_valid_data = s.g_has_valid_data ∧
    (adc_step now sample s).g_latest_valid_temp = s.g_latest_valid_temp := by
  unfold adc_step
  split
  · cases sample <;> simp [adc_push_preserves]
  · simp

theorem print_step_report_elapsed (now : Nat) (s : MonitorState) (r : Report)
    (h : (print_step now s).2 = some r) :
    r.relative_time_ms = now - s.time_base_tick := by
  unfold print_step at h
  split at h
  · split at h
    · rw [(Option.some.injEq _ _).mp h.symm]
    · simp at h
  · simp at h

/-- C2 counterexample: the spec example run.  Period 250, the monitor
synced with TimeBase = next report deadline = 250, polls at ticks 251,
501 and 760.  The code computes each reported elapsed value as
`now - time_base_tick`, so the run reports 1, 251 and 510 ms - not the
arithmetic progression 0, 250, 500 claimed for deadline-based
timestamps. -/
theorem C2_elapsed_from_now_counterexample :
    (runPolls
        { g_latest_valid_temp := 234, g_has_valid_data := true,
          is_running := true, time_synced := true, time_base_tick := 250,
          next_print_tick := 250, next_adc_tick := 251,
          adc_values := List.replicate 10 0, adc_count := 0 }
        [(251, false, none), (501, false, none), (760, false, none)]).2.map
        (fun r => r.relative_time_ms) = [1, 251, 510] ∧
    ¬ (runPolls
        { g_latest_valid_temp := 234, g_has_valid_data := true,
          is_running := true, time_synced := true, time_base_tick := 250,
          next_print_tick := 250, next_adc_tick := 251,
          adc_values := List.replicate 10 0, adc_count := 0 }
        [(251, false, none), (501, false, none), (760, false, none)]).2.map
        (fun r => r.relative_time_ms) = [0, 250, 500] := by
  constructor
  · rfl
  · decide

/-- C2 amended: each emitted report's elapsed timestamp equals the
current poll tick minus TimeBase (not the deadline minus TimeBase), so
the scheduling jitter of the poll that fires the report appears in the
reported values: with period 250 and fires at now = 251, 501, 760 the
reported values are exactly 1, 251, 510 ms. -/
theorem C2_elapsed_is_now_minus_timebase :
    (∀ (now : Nat) (pressed : Bool) (sample : Option Nat) (s : MonitorState)
        (r : Report), (Monitor_Task now pressed sample s).2 = some r →
        r.relative_time_ms = now - s.time_base_tick) ∧
    (runPolls
        { g_latest_valid_temp := 234, g_has_valid_data := true,
          is_running := true, time_synced := true, time_base_tick := 250,
          next_print_tick := 250, next_adc_tick := 251,
          adc_values := List.replicate 10 0, adc_count := 0 }
        [(251, false, none), (501, false, none), (760, false, none)]).2.map
        (fun r => r.relative_time_ms) = [1, 251, 510] := by
  constructor
  · intro now pressed sample s r hr
    unfold Monitor_Task at hr
    dsimp only at hr
    split at hr
    · have h1 := print_step_report_elapsed now
        (adc_step now sample (button_step pressed s)) r hr
      rw [h1, (adc_step_preserves now sample (button_step pressed s)).1,
        button_step_time_base]
    · simp at hr
  · rfl

/-- Witness for the general part of C2's amended theorem: a concrete
poll that fires a report at tick 300 with TimeBase 250 reports
elapsed 50 ms. -/
theorem C2_elapsed_is_now_minus_timebase_witness :
    (50 : Nat) = 300 - 250 :=
  C2_elapsed_is_now_minus_timebase.1 300 false none
    { g_latest_valid_temp := 234, g_has_valid_data := true,
      is_running := true, time_synced := true, time_base_tick := 250,
      next_print_tick := 250, next_adc_tick := 301,
      adc_values := List.replicate 10 0, adc_count := 0 }
    { relative_time_ms := 50, temp_tenths := 234, median_adc := 0 } (by decide)

/-- C3: when the first valid temperature value (raw at most 1000)
arrives at instant `t` while the monitor is running and not yet synced,
the monitor becomes synced with `time_base_tick = t + 250`,
`next_print_tick = t + 250` and `next_adc_tick = t`; concretely, a valid
frame with raw 234 arriving at tick 1000 yields TimeBase 1250, no report
before tick 1250, a first report at tick 1250 showing elapsed 0 ms
(printed `0.00s`) and temperature 234 tenths (printed `23.4 C`), and a
second report at tick 1500 showing elapsed 250 ms (printed `0.25s`). -/
theorem C3_first_frame_establishes_timebase :
    (∀ (t : Nat) (lsb msb : Byte) (s : MonitorState),
        s.is_running = true → s.time_synced = false → mkRaw lsb msb ≤ 1000 →
        (Update_Temperature t lsb msb s).time_synced = true ∧
        (Update_Temperature t lsb msb s).time_base_tick = t + PRINT_INTERVAL_MS ∧
        (Update_Temperature t lsb msb s).next_print_tick = t + PRINT_INTERVAL_MS ∧
        (Update_Temperature t lsb msb s).next_adc_tick = t) ∧
    (Update_Temperature 1000 234 0 initMonitorState).time_base_tick = 1250 ∧
    (∀ now : Nat, now < 1250 →
        (Monitor_Task now false (some 500)
          (Update_Temperature 1000 234 0 initMonitorState)).2 = none) ∧
    (runPolls (Update_Temperature 1000 234 0 initMonitorState)
        [(1250, false, some 500), (1500, false, some 500)]).2.map
        (fun r => (r.relative_time_ms, r.temp_tenths)) = [(0, 234), (250, 234)] := by
  refine ⟨?_, by decide, ?_, by decide⟩
  · intro t lsb msb s hrun hsync hraw
    unfold Update_Temperature
    simp [hraw, hrun, hsync]
  · intro now hnow
    have hupd : Update_Temperature 1000 234 0 initMonitorState =
        { g_latest_valid_temp := 234, g_has_valid_data := true,
          is_running := true, time_synced := true, time_base_tick := 1250,
          next_print_tick := 1250, next_adc_tick := 1000,
          adc_values := List.replicate 10 0, adc_count := 0 } := by decide
    have h2 : ¬ ((1250 : Nat) ≤ now) := by omega
    rw [hupd]
    by_cases h3 : (1000 : Nat) ≤ now <;>
      simp [Monitor_Task, button_step, adc_step, adc_push, print_step,
        advance_deadline, MAX_ADC_SAMPLES, ADC_SAMPLE_MS, PRINT_INTERVAL_MS,
        h2, h3]

/-- Witness for C3's universal part at tick 0. -/
theorem C3_first_frame_establishes_timebase_witness :
    (Update_Temperature 0 234 0 initMonitorState).time_base_tick =
      0 + PRINT_INTERVAL_MS :=
  (C3_first_frame_establishes_timebase.1 0 234 0 initMonitorState
    rfl rfl (by decide)).2.1

/-- C4: a decoded sample updates the temperature register (value and
ever-received flag) exactly when its raw value is at most 1000 (i.e.
raw/10.0 lies in [0.0, 100.0]); for any raw value above 1000 the whole
scheduler state - register included - is left unchanged, and the
decoder state produced by the receive callback is the plain `rxStep`
result in every case, so a rejection never resets the decoder. -/
theorem C4_range_filter :
    (∀ (t : Nat) (lsb msb : Byte) (m : MonitorState), 1000 < mkRaw lsb msb →
        Update_Temperature t lsb msb m = m) ∧
    (∀ (t : Nat) (lsb msb : Byte) (m : MonitorState), mkRaw lsb msb ≤ 1000 →
        (Update_Temperature t lsb msb m).g_latest_valid_temp = mkRaw lsb msb ∧
        (Update_Temperature t lsb msb m).g_has_valid_data = true) ∧
    (∀ (t : Nat) (b : Byte) (d : DecoderState) (m : MonitorState),
        (HAL_UART_RxCpltCallback t b d m).1 = (rxStep d b).1) := by
  refine ⟨?_, ?_, ?_⟩
  · intro t lsb msb m h
    unfold Update_Temperature
    rw [if_neg (by omega)]
  · intro t lsb msb m h
    unfold Update_Temperature
    rw [if_pos h]
    by_cases hc : (m.is_running && !m.time_synced) = true <;> simp [hc]
  · intro t b d m
    unfold HAL_UART_RxCpltCallback
    cases h : (rxStep d b).2 <;> simp [h]

/-- Witness for C4: raw 1050 (bytes 0x1A low, 0x04 high, 105.0 degrees)
leaves the freshly initialised register state unchanged. -/
theorem C4_range_filter_witness :
    Update_Temperature 0 0x1A 0x04 initMonitorState = initMonitorState :=
  C4_range_filter.1 0 0x1A 0x04 initMonitorState (by decide)

/-- C5 counterexample: the sample buffer is not a ring buffer.  From a
full buffer (count 10) a poll that stores a new conversion result 99
leaves the stored samples completely unchanged - the new value is
dropped, nothing is evicted - and immediately after initialisation the
buffer holds 0 readings, not a fixed N. -/
theorem C5_ring_buffer_counterexample :
    (Monitor_Task 100 false (some 99)
        { g_latest_valid_temp := 234, g_has_valid_data := true,
          is_running := true, time_synced := true, time_base_tick := 0,
          next_print_tick := 1000000, next_adc_tick := 0,
          adc_values := [1, 2, 3, 4, 5, 6, 7, 8, 9, 10],
          adc_count := 10 }).1.adc_values = [1, 2, 3, 4, 5, 6, 7, 8, 9, 10] ∧
    (Monitor_Task 100 false (some 99)
        { g_latest_valid_temp := 234, g_has_valid_data := true,
          is_running := true, time_synced := true, time_base_tick := 0,
          next_print_tick := 1000000, next_adc_tick := 0,
          adc_values := [1, 2, 3, 4, 5, 6, 7, 8, 9, 10],
          adc_count := 10 }).1.adc_count = 10 ∧
    ¬ 99 ∈ (Monitor_Task 100 false (some 99)
        { g_latest_valid_temp := 234, g_has_valid_data := true,
          is_running := true, time_synced := true, time_base_tick := 0,
          next_print_tick := 1000000, next_adc_tick := 0,
          adc_values := [1, 2, 3, 4, 5, 6, 7, 8, 9, 10],
          adc_count := 10 }).1.adc_values ∧
    initMonitorState.adc_count = 0 := by
  refine ⟨rfl, rfl, by decide, rfl⟩

/-- C5 amended: the sample window is a bounded accumulator of capacity
`MAX_ADC_SAMPLES` = 10, not a ring: while the buffer is below capacity a
push appends the new value after the current contents in O(1); once the
buffer is full a push drops the new value and changes nothing; the
count never exceeds the capacity; and each poll that emits a report
clears the buffer (count back to 0) for the next interval. -/
theorem C5_bounded_accumulator :
    (∀ (s : MonitorState) (v : Nat), s.adc_count < MAX_ADC_SAMPLES →
        (adc_push s v).adc_count = s.adc_count + 1 ∧
        (adc_push s v).adc_values = s.adc_values.set s.adc_count v) ∧
    (∀ (s : MonitorState) (v : Nat), s.adc_count < MAX_ADC_SAMPLES →
        s.adc_values.length = MAX_ADC_SAMPLES →
        (adc_push s v).adc_values.take (adc_push s v).adc_count =
          s.adc_values.take s.adc_count ++ [v]) ∧
    (∀ (s : MonitorState) (v : Nat), MAX_ADC_SAMPLES ≤ s.adc_count →
        adc_push s v = s) ∧
    (∀ (s : MonitorState) (v : Nat), s.adc_count ≤ MAX_ADC_SAMPLES →
        (adc_push s v).adc_count ≤ MAX_ADC_SAMPLES) ∧
    (∀ (now : Nat) (pressed : Bool) (sample : Option Nat) (s : MonitorState)
        (r : Report), (Monitor_Task now pressed sample s).2 = some r →
        (Monitor_Task now pressed sample s).1.adc_count = 0) := by
  refine ⟨?_, ?_, ?_, ?_, ?_⟩
  · intro s v h
    unfold adc_push
    rw [if_pos h]
    exact ⟨rfl, rfl⟩
  · intro s v h hlen
    unfold adc_push
    rw [if_pos h]
    dsimp only
    have hn : s.adc_count < s.adc_values.length := by rw [hlen]; exact h
    rw [List.set_eq_take_cons_drop v hn]
    have hlt : (s.adc_values.take s.adc_count).length = s.adc_count := by
      rw [List.length_take]
      omega
    rw [List.take_append_eq_append_take, hlt]
    have h1 : s.adc_count + 1 - s.adc_count = 1 := by omega
    have h2 : (s.adc_values.take s.adc_count).take (s.adc_count + 1) =
        s.adc_values.take s.adc_count := by
      apply List.take_of_length_le
      omega
    rw [h1, h2]
    rfl
  · intro s v h
    unfold adc_push
    rw [if_neg (by omega)]
  · intro s v h
    unfold adc_push
    split
    · next hlt => exact Nat.succ_le_of_lt hlt
    · exact h
  · intro now pressed sample s r hr
    unfold Monitor_Task at hr ⊢
    dsimp only at hr ⊢
    split at hr
    · next hgate =>
      rw [if_pos hgate]
      unfold print_step at hr ⊢
      split at hr
      · next hfire =>
        rw [if_pos hfire]
        split at hr
        · next hdata => rw [if_pos hdata]
        · simp at hr
      · simp at hr
    · simp at hr

/-- Witness for C5's amended theorem: pushing 7 into a window holding
one reading 5 (out of the 10 slots) appends it. -/
theorem C5_bounded_accumulator_witness :
    (adc_push
        { g_latest_valid_temp := 0, g_has_valid_data := false,
          is_running := true, time_synced := true, time_base_tick := 0,
          next_print_tick := 0, next_adc_tick := 0,
          adc_values := [5, 0, 0, 0, 0, 0, 0, 0, 0, 0], adc_count := 1 }
        7).adc_values.take (adc_push
        { g_latest_valid_temp := 0, g_has_valid_data := false,
          is_running := true, time_synced := true, time_base_tick := 0,
          next_print_tick := 0, next_adc_tick := 0,
          adc_values := [5, 0, 0, 0, 0, 0, 0, 0, 0, 0], adc_count := 1 }
        7).adc_count =
      ([5, 0, 0, 0, 0, 0, 0, 0, 0, 0] : List Nat).take 1 ++ [7] :=
  C5_bounded_accumulator.2.1
    { g_latest_valid_temp := 0, g_has_valid_data := false,
      is_running := true, time_synced := true, time_base_tick := 0,
      next_print_tick := 0, next_adc_tick := 0,
      adc_values := [5, 0, 0, 0, 0, 0, 0, 0, 0, 0], adc_count := 1 }
    7 (by decide) (by decide)

theorem print_step_next_adc (now : Nat) (s : MonitorState) :
    (print_step now s).1.next_adc_tick = s.next_adc_tick := by
  unfold print_step
  split
  · split <;> rfl
  · rfl

theorem print_step_fires (now : Nat) (s : MonitorState)
    (h : s.next_print_tick ≤ now) :
    (print_step now s).1.next_print_tick =
      advance_deadline s.next_print_tick now PRINT_INTERVAL_MS := by
  unfold print_step
  rw [if_pos h]
  split <;> rfl

theorem adc_step_fires (now : Nat) (sample : Option Nat) (s : MonitorState)
    (h : s.next_adc_tick ≤ now) :
    (adc_step now sample s).next_adc_tick =
      advance_deadline s.next_adc_tick now ADC_SAMPLE_MS := by
  unfold adc_step
  rw [if_pos h]

/-- C6: when a deadline fires, `advance_deadline` moves it by exactly
one fixed period by accumulation (`deadline += period`) whenever the
deadline is at most one period behind the current tick, resynchronizes
it to `now + period` when it has fallen behind by more than one period,
always advances it strictly (so the same deadline value never fires
twice) and never leaves it behind `now` (so a late poll fires at most
one report/sample, never a burst); and `Monitor_Task` advances both its
deadlines exactly this way when they fire. -/
theorem C6_deadline_advancement :
    (∀ d now p : Nat, p < now - d → advance_deadline d now p = now + p) ∧
    (∀ d now p : Nat, now - d ≤ p → advance_deadline d now p = d + p) ∧
    (∀ d now p : Nat, 0 < p → d < advance_deadline d now p) ∧
    (∀ d now p : Nat, now ≤ advance_deadline d now p) ∧
    (∀ (now : Nat) (sample : Option Nat) (s : MonitorState),
        s.is_running = true → s.time_synced = true → s.next_adc_tick ≤ now →
        (Monitor_Task now false sample s).1.next_adc_tick =
          advance_deadline s.next_adc_tick now ADC_SAMPLE_MS) ∧
    (∀ (now : Nat) (sample : Option Nat) (s : MonitorState),
        s.is_running = true → s.time_synced = true → s.next_print_tick ≤ now →
        (Monitor_Task now false sample s).1.next_print_tick =
          advance_deadline s.next_print_tick now PRINT_INTERVAL_MS) := by
  refine ⟨?_, ?_, ?_, ?_, ?_, ?_⟩
  · intro d now p h
    unfold advance_deadline
    rw [if_pos (by omega)]
  · intro d now p h
    unfold advance_deadline
    rw [if_neg (by omega)]
  · intro d now p h
    unfold advance_deadline
    dsimp only
    split <;> omega
  · intro d now p
    unfold advance_deadline
    dsimp only
    split <;> omega
  · intro now sample s hrun hsync hfire
    unfold Monitor_Task
    dsimp only
    rw [button_step_false]
    rw [if_pos (by rw [hrun, hsync]; rfl)]
    rw [print_step_next_adc, adc_step_fires now sample s hfire]
  · intro now sample s hrun hsync hfire
    unfold Monitor_Task
    dsimp only
    rw [button_step_false]
    rw [if_pos (by rw [hrun, hsync]; rfl)]
    rw [print_step_fires now (adc_step now sample s)
      (by rw [(adc_step_preserves now sample s).2.1]; exact hfire)]
    rw [(adc_step_preserves now sample s).2.1]

/-- Witness for C6: a deadline of 200 that fires at tick 230 with
period 50 accumulates to exactly 250. -/
theorem C6_deadline_advancement_witness :
    advance_deadline 200 230 50 = 200 + 50 :=
  C6_deadline_advancement.2.1 200 230 50 (by decide)

/-- The atomic accesses relevant to the shared temperature register:
interrupt masking, the two register writes of the decoder path and the
two register reads of the scheduler path. -/
inductive AccessEvent
  | irq_disable
  | irq_enable
  | write_value
  | write_flag
  | read_value
  | read_flag
deriving DecidableEq

open AccessEvent

/-- The write side: the two stores of `Update_Temperature`
(Monitor_usart.c lines 101-102).  No interrupt masking surrounds them -
the function relies on already running in interrupt context. -/
def tempWritePath : List AccessEvent := [write_value, write_flag]

/-- The read side: the critical section of `Monitor_Task`
(Monitor_usart.c lines 197-200): `__disable_irq()`, the two loads,
`__enable_irq()`. -/
def tempReadPath : List AccessEvent := [irq_disable, read_value, read_flag, irq_enable]

/-- Whether every register access of the trace happens while interrupts
are masked, starting from the given masking state: the formal reading of
"performed inside an interrupt-disabled critical section". -/
def accessesMasked : List AccessEvent → Bool → Bool
  | [], _ => true
  | irq_disable :: r, _ => accessesMasked r true
  | irq_enable :: r, _ => accessesMasked r false
  | _ :: r, m => m && accessesMasked r m

/-- The interrupt-masking state after executing a prefix of a task-side
trace (interrupts initially enabled). -/
def irqEnabledAfter (tr : List AccessEvent) : Bool :=
  tr.foldl
    (fun en e =>
      match e with
      | irq_disable => false
      | irq_enable => true
      | _ => en)
    true

/-- The shared two-field register: `g_latest_valid_temp` (as raw tenths)
and `g_has_valid_data` (Monitor_usart.c lines 52-53). -/
structure SharedPair where
  value : Nat
  flag : Bool
deriving DecidableEq

/-- Execution state of the interleaving model: the shared register plus
the reader's local copies `current_temp` and `has_data`
(Monitor_usart.c lines 195-196, initialised to 0). -/
structure ExecState where
  shared : SharedPair
  r_value : Nat
  r_flag : Bool
deriving DecidableEq

/-- Effect of one atomic access; `v` is the raw value the interrupt
writes. -/
def execEvent (v : Nat) (st : ExecState) : AccessEvent → ExecState
  | write_value => { st with shared := { st.shared with value := v } }
  | write_flag => { st with shared := { st.shared with flag := true } }
  | read_value => { st with r_value := st.shared.value }
  | read_flag => { st with r_flag := st.shared.flag }
  | _ => st

/-- On the single-core target the UART interrupt preempts `Monitor_Task`
and runs to completion: the whole write path executes between two
consecutive reader steps, at position `k` of the read path. -/
def interleaveAt (k : Nat) : List AccessEvent :=
  tempReadPath.take k ++ tempWritePath ++ tempReadPath.drop k

/-- Run a trace from the reader's entry state (local copies 0/false)
with the shared register initially `old`. -/
def runAccess (v : Nat) (old : SharedPair) (tr : List AccessEvent) : ExecState :=
  tr.foldl (execEvent v) { shared := old, r_value := 0, r_flag := false }

/-- C9 counterexample: the read side of the register (Monitor_usart.c
lines 197-200) is an interrupt-disabled critical section, but the write
side (lines 101-102) is not - `Update_Temperature` masks nothing - so
the update is *not* performed inside a critical section on both sides,
as the claim states. -/
theorem C9_write_side_unmasked_counterexample :
    accessesMasked tempReadPath false = true ∧
    ¬ accessesMasked tempWritePath false = true := by
  decide

/-- C9 amended: only the read side is an interrupt-disabled critical
section; the write side runs unmasked, relying on interrupt context.
Torn reads are still impossible: since the interrupt runs to completion
at any single point `k` of the read path where interrupts are enabled,
the reader's `(current_temp, has_data)` pair is always either the old
register pair or the newly written pair `(v, true)`, never a mix. -/
theorem C9_reads_never_torn (v : Nat) (old : SharedPair) (k : Nat)
    (hk : k ≤ tempReadPath.length)
    (hen : irqEnabledAfter (tempReadPath.take k) = true) :
    accessesMasked tempReadPath false = true ∧
    (((runAccess v old (interleaveAt k)).r_value = old.value ∧
      (runAccess v old (interleaveAt k)).r_flag = old.flag) ∨
     ((runAccess v old (interleaveAt k)).r_value = v ∧
      (runAccess v old (interleaveAt k)).r_flag = true)) := by
  refine ⟨by decide, ?_⟩
  have hk4 : k ≤ 4 := by simpa [tempReadPath] using hk
  interval_cases k
  · right
    constructor <;> rfl
  · exact absurd hen (by decide)
  · exact absurd hen (by decide)
  · exact absurd hen (by decide)
  · left
    constructor <;> rfl

/-- Witness for C9's amended theorem: interrupt arriving after the
reader's critical section (position 4) leaves the old pair visible. -/
theorem C9_reads_never_torn_witness :
    accessesMasked tempReadPath false = true ∧
    (((runAccess 7 { value := 3, flag := false } (interleaveAt 4)).r_value = 3 ∧
      (runAccess 7 { value := 3, flag := false } (interleaveAt 4)).r_flag = false) ∨
     ((runAccess 7 { value := 3, flag := false } (interleaveAt 4)).r_value = 7 ∧
      (runAccess 7 { value := 3, flag := false } (interleaveAt 4)).r_flag = true)) :=
  C9_reads_never_torn 7 { value := 3, flag := false } 4 (by decide) (by decide)
